import Mathlib

/-!
Shallow embedding of the appointment scheduling engine of
`src/EMR_Frontend_Assignment.jsx` (the `appointmentService` object and the
`getFilteredAppointments` tab filter), together with proofs about it.

The JavaScript store is a mutable array of appointment records; here every
operation takes the store as an explicit `List Appointment` argument and
returns the result together with the store after the call (a thrown JS
exception becomes an `Except.error` value, and in that case the returned
store is the unchanged input, since the code throws before mutating).
`Date.now()` is an external input and becomes an explicit `now : Nat`
argument of `createAppointment`.
-/

namespace EMR

/-- An appointment record, exactly the fields of the objects stored in
`mockAppointments`.  `status` stays a `String` because
`updateAppointmentStatus` writes whatever string it is given. -/
structure Appointment where
  id : String
  patientName : String
  date : String
  time : String
  duration : Int
  doctorName : String
  status : String
  mode : String
deriving DecidableEq

/-- The payload accepted by `createAppointment`.  `duration` is a number in
the JS code (the UI passes `parseInt(formData.duration)`); `status` is an
optional extra key (`payload.status || 'Scheduled'`). -/
structure Payload where
  patientName : String
  date : String
  time : String
  duration : Int
  doctorName : String
  mode : String
  status : Option String
deriving DecidableEq

/-- The optional filters of `getAppointments` (`filters = {}` by default). -/
structure Filters where
  date : Option String
  status : Option String
  doctorName : Option String
deriving DecidableEq

/-- Structured counterpart of the `Error` values thrown by the service:
`Missing required field: f`, `Time conflict with appointment at t`,
`Appointment not found`. -/
inductive ServiceError where
  | missingField (field : String)
  | timeConflict (time : String)
  | notFound
deriving DecidableEq

instance {ε α : Type} [DecidableEq ε] [DecidableEq α] :
    DecidableEq (Except ε α) := fun x y =>
  match x, y with
  | .ok a, .ok b =>
    if h : a = b then isTrue (by rw [h]) else isFalse (fun hc => h (by cases hc; rfl))
  | .error a, .error b =>
    if h : a = b then isTrue (by rw [h]) else isFalse (fun hc => h (by cases hc; rfl))
  | .ok _, .error _ => isFalse (fun hc => Except.noConfusion hc)
  | .error _, .ok _ => isFalse (fun hc => Except.noConfusion hc)

/-! ### Date / time arithmetic

The JS code computes ``new Date(`${date}T${time}`)`` and compares
millisecond timestamps.  We model a `YYYY-MM-DD` / `HH:MM` pair as a minute
count on the proleptic Gregorian calendar (the scale differs from JS only
by the constant factor 60000 and a constant offset, which cancel in every
comparison).  An unparsable string gives `none`, mirroring `NaN`: in JS
every comparison against `NaN` is false, and `conflictWith` below treats
`none` the same way. -/

/-- Splits a character list at every occurrence of `sep`. -/
def splitCharsOn (sep : Char) : List Char → List (List Char)
  | [] => [[]]
  | c :: cs =>
    match splitCharsOn sep cs with
    | [] => if c = sep then [[], [c]] else [[c]]
    | g :: gs => if c = sep then [] :: g :: gs else (c :: g) :: gs

/-- The numeric value of a decimal digit character. -/
def charDigit? (c : Char) : Option Nat :=
  if '0' ≤ c ∧ c ≤ '9' then some (c.toNat - '0'.toNat) else none

/-- Reads a nonempty all-digit character list as a natural number. -/
def natOfDigits : List Char → Option Nat
  | [] => none
  | l => l.foldl (fun acc c =>
      match acc, charDigit? c with
      | some n, some d => some (n * 10 + d)
      | _, _ => none) (some 0)

/-- Gregorian leap-year test. -/
def isLeap (y : Nat) : Bool :=
  (y % 4 = 0 && y % 100 ≠ 0) || y % 400 = 0

/-- Number of days in month `m` of year `y` (months are 1-based). -/
def daysInMonth (y m : Nat) : Nat :=
  if m = 2 then (if isLeap y then 29 else 28)
  else if m = 4 ∨ m = 6 ∨ m = 9 ∨ m = 11 then 30
  else 31

/-- Days in year `y` before the first of month `m`. -/
def daysBeforeMonth (y m : Nat) : Nat :=
  (List.range (m - 1)).foldl (fun acc k => acc + daysInMonth y (k + 1)) 0

/-- Day number of `y-m-d` counted from 0001-01-01 (day 0), proleptic
Gregorian — the standard ordinal-date formula. -/
def dateToDayNumber (y m d : Nat) : Nat :=
  365 * (y - 1) + (y - 1) / 4 - (y - 1) / 100 + (y - 1) / 400
    + daysBeforeMonth y m + (d - 1)

/-- Parses `"YYYY-MM-DD"` and returns its day number; `none` when the
string is not a valid calendar date (JS `Date` would be `Invalid Date`). -/
def dateToDay? (s : String) : Option Nat :=
  match splitCharsOn '-' s.data with
  | [ys, ms, ds] =>
    match natOfDigits ys, natOfDigits ms, natOfDigits ds with
    | some y, some m, some d =>
      if 1 ≤ m ∧ m ≤ 12 ∧ 1 ≤ d ∧ d ≤ daysInMonth y m then
        some (dateToDayNumber y m d)
      else none
    | _, _, _ => none
  | _ => none

/-- Parses `"HH:MM"` as minutes after midnight; `none` when invalid.
JS accepts `24:00` in an ISO datetime, so it is accepted here too. -/
def timeToMin? (s : String) : Option Nat :=
  match splitCharsOn ':' s.data with
  | [hs, ms] =>
    match natOfDigits hs, natOfDigits ms with
    | some h, some mi =>
      if (h ≤ 23 ∧ mi ≤ 59) ∨ (h = 24 ∧ mi = 0) then some (h * 60 + mi)
      else none
    | _, _ => none
  | _ => none

/-- Minute timestamp of ``new Date(`${date}T${time}`)``; `none` models an
invalid date (`NaN`). -/
def dateTimeToMin? (date time : String) : Option Int :=
  match dateToDay? date, timeToMin? time with
  | some day, some mi => some ((day * 1440 + mi : Nat) : Int)
  | _, _ => none

/-! ### Case-insensitive substring test (JS `includes` after `toLowerCase`) -/

/-- Whether `pre` is an initial segment of `l`. -/
def startsWithL : List Char → List Char → Bool
  | _, [] => true
  | [], _ :: _ => false
  | a :: h, b :: n => a = b && startsWithL h n

/-- Whether `n` occurs as a contiguous segment of `h` (JS
`String.prototype.includes`). -/
def containsL : List Char → List Char → Bool
  | [], n => startsWithL [] n
  | a :: h, n => startsWithL (a :: h) n || containsL h n

/-- `hay.toLowerCase().includes(needle.toLowerCase())`. -/
def strContainsCI (hay needle : String) : Bool :=
  containsL hay.toLower.data needle.toLower.data

/-! ### The sort of `getAppointments`

The JS comparator is
`(a, b) => a.date === b.date ? a.time.localeCompare(b.time) : a.date.localeCompare(b.date)`
and `Array.prototype.sort` is a stable sort by that comparator.  We embed
it as a stable insertion sort: an element is inserted before the first
element strictly greater than it. -/

/-- The comparator reports `a` strictly before `b`. -/
def aptLtB (a b : Appointment) : Bool :=
  if a.date = b.date then decide (a.time < b.time) else decide (a.date < b.date)

/-- Stable ordered insertion with respect to the comparator. -/
def insertApt (a : Appointment) : List Appointment → List Appointment
  | [] => [a]
  | b :: l => if aptLtB a b then a :: b :: l else b :: insertApt a l

/-- Stable insertion sort by the JS comparator. -/
def sortApts : List Appointment → List Appointment
  | [] => []
  | a :: l => insertApt a (sortApts l)

/-! ### The service operations -/

/-- JS truthiness of an optional string filter value
(`if (filters.date) ...`). -/
def optTruthy : Option String → Bool
  | some s => s ≠ ""
  | none => false

/-- `appointmentService.getAppointments(filters)`: the three optional
filters in order, then the sort. -/
def getAppointments (filters : Filters) (store : List Appointment) :
    List Appointment :=
  let s1 := if optTruthy filters.date then
      store.filter (fun apt => apt.date == filters.date.getD "")
    else store
  let s2 := if optTruthy filters.status then
      s1.filter (fun apt => apt.status == filters.status.getD "")
    else s1
  let s3 := if optTruthy filters.doctorName then
      s2.filter (fun apt => strContainsCI apt.doctorName (filters.doctorName.getD ""))
    else s2
  sortApts s3

/-- The first field of `required = ['patientName', 'date', 'time',
'duration', 'doctorName', 'mode']` whose payload value is JS-falsy
(empty string, or 0 for the number `duration`). -/
def firstMissingField (p : Payload) : Option String :=
  if p.patientName = "" then some "patientName"
  else if p.date = "" then some "date"
  else if p.time = "" then some "time"
  else if p.duration = 0 then some "duration"
  else if p.doctorName = "" then some "doctorName"
  else if p.mode = "" then some "mode"
  else none

/-- `apt.status !== 'Cancelled' && apt.status !== 'Completed'` — the
statuses that still occupy the doctor's schedule. -/
def activeStatus (s : String) : Bool :=
  s ≠ "Cancelled" && s ≠ "Completed"

/-- Membership test of the `conflicts` array built by `createAppointment`:
same doctor, same date string, active status. -/
def inConflictSet (p : Payload) (apt : Appointment) : Bool :=
  apt.doctorName == p.doctorName && apt.date == p.date && activeStatus apt.status

/-- The overlap test of the conflict loop:
`newStart < existingEnd && newEnd > existingStart` on `Date` timestamps,
with `existingEnd = existingStart + apt.duration` minutes.  Any `NaN`
timestamp makes both comparisons false. -/
def conflictWith (p : Payload) (apt : Appointment) : Bool :=
  match dateTimeToMin? apt.date apt.time, dateTimeToMin? p.date p.time with
  | some eS, some nS => nS < eS + apt.duration && nS + p.duration > eS
  | _, _ => false

/-- `payload.status || 'Scheduled'`. -/
def statusOrDefault : Option String → String
  | some v => if v = "" then "Scheduled" else v
  | none => "Scheduled"

/-- ``id: `apt-${Date.now()}` ``. -/
def mkId (now : Nat) : String :=
  "apt-" ++ toString now

/-- The record pushed onto the store on a successful create. -/
def mkNewApt (now : Nat) (p : Payload) : Appointment :=
  { id := mkId now
    patientName := p.patientName
    date := p.date
    time := p.time
    duration := p.duration
    doctorName := p.doctorName
    status := statusOrDefault p.status
    mode := p.mode }

/-- `appointmentService.createAppointment(payload)`.  Returns the thrown
error or the created record, together with the store after the call. -/
def createAppointment (now : Nat) (p : Payload) (store : List Appointment) :
    Except ServiceError Appointment × List Appointment :=
  match firstMissingField p with
  | some f => (.error (.missingField f), store)
  | none =>
    match (store.filter (inConflictSet p)).find? (conflictWith p) with
    | some apt => (.error (.timeConflict apt.time), store)
    | none =>
      let newApt := mkNewApt now p
      (.ok newApt, store ++ [newApt])

/-- In-place status write on the first record with the given id
(`mockAppointments.find(a => a.id === id)` then `apt.status = newStatus`);
`none` when no record matches. -/
def updateFirst (id ns : String) :
    List Appointment → Option (Appointment × List Appointment)
  | [] => none
  | a :: l =>
    if a.id = id then
      some ({ a with status := ns }, { a with status := ns } :: l)
    else
      match updateFirst id ns l with
      | some (r, l2) => some (r, a :: l2)
      | none => none

/-- `appointmentService.updateAppointmentStatus(id, newStatus)`. -/
def updateAppointmentStatus (id ns : String) (store : List Appointment) :
    Except ServiceError Appointment × List Appointment :=
  match updateFirst id ns store with
  | some (r, s2) => (.ok r, s2)
  | none => (.error .notFound, store)

/-- `splice` of the first record with the given id; `none` when
`findIndex` returns `-1`. -/
def removeFirst (id : String) : List Appointment → Option (List Appointment)
  | [] => none
  | a :: l =>
    if a.id = id then some l
    else
      match removeFirst id l with
      | some l2 => some (a :: l2)
      | none => none

/-- `appointmentService.deleteAppointment(id)`. -/
def deleteAppointment (id : String) (store : List Appointment) :
    Bool × List Appointment :=
  match removeFirst id store with
  | some s2 => (true, s2)
  | none => (false, store)

/-- The tab refinement `getFilteredAppointments` of the view, with the
clock value `today` (`new Date().toISOString().split('T')[0]`) passed in
explicitly.  JS `>=` / `<` on the ISO date strings are the string order. -/
def getFilteredAppointments (tab today : String)
    (appointments : List Appointment) : List Appointment :=
  if tab = "today" then
    appointments.filter (fun apt => apt.date == today)
  else if tab = "upcoming" then
    appointments.filter (fun apt =>
      decide (today ≤ apt.date) &&
        (apt.status == "Scheduled" || apt.status == "Upcoming" ||
          apt.status == "Confirmed"))
  else if tab = "past" then
    appointments.filter (fun apt =>
      decide (apt.date < today) || apt.status == "Completed")
  else appointments

/-! ### Operation sequences and the no-double-booking invariant -/

/-- One engine call of a caller-driven sequence. -/
inductive Op where
  | create (now : Nat) (p : Payload)
  | update (id newStatus : String)
  | del (id : String)

/-- The store after one call (a failed call leaves the store unchanged,
see `engine_atomicity`). -/
def applyOp (store : List Appointment) : Op → List Appointment
  | .create now p => (createAppointment now p store).2
  | .update id ns => (updateAppointmentStatus id ns store).2
  | .del id => (deleteAppointment id store).2

/-- The store after a sequence of calls. -/
def runOps (store : List Appointment) (ops : List Op) : List Appointment :=
  ops.foldl applyOp store

/-- The call is not an `updateAppointmentStatus` call. -/
def notUpdate : Op → Prop
  | .update _ _ => False
  | _ => True

/-- Symmetric form of the conflict test between two stored records, used
to state the no-double-booking invariant. -/
def overlapB (a b : Appointment) : Bool :=
  match dateTimeToMin? a.date a.time, dateTimeToMin? b.date b.time with
  | some aS, some bS => bS < aS + a.duration && bS + b.duration > aS
  | _, _ => false

/-- No two records of the store with the same doctor, the same date
string and active statuses have overlapping intervals. -/
def NoDouble (store : List Appointment) : Prop :=
  store.Pairwise fun a b =>
    a.doctorName = b.doctorName → a.date = b.date →
    activeStatus a.status = true → activeStatus b.status = true →
    overlapB a b = false


/-! ### Concrete sample data used by the closed theorems below -/

/-- A scheduled 09:00, 30-minute appointment of doctor `Dr. A`. -/
def apt09 : Appointment :=
  { id := "apt-0", patientName := "John", date := "2024-12-29", time := "09:00",
    duration := 30, doctorName := "Dr. A", status := "Scheduled", mode := "In-person" }

/-- A one-appointment store. -/
def store09 : List Appointment := [apt09]

/-- A request overlapping `apt09` (09:15 inside 09:00–09:30). -/
def pay0915 : Payload :=
  { patientName := "P", date := "2024-12-29", time := "09:15", duration := 30,
    doctorName := "Dr. A", mode := "Video", status := none }

/-- A request starting exactly when `apt09` ends (half-open boundary). -/
def pay0930 : Payload :=
  { pay0915 with time := "09:30" }

/-- A completed appointment. -/
def aptDone : Appointment :=
  { apt09 with id := "apt-9", status := "Completed" }

/-- A create request for the 09:00 slot of `Dr. A`. -/
def payC : Payload :=
  { patientName := "P1", date := "2024-12-29", time := "09:00", duration := 30,
    doctorName := "Dr. A", mode := "Video", status := none }

/-- The record created from `payC` at clock value 1. -/
def aptU1 : Appointment := mkNewApt 1 payC

/-- The record created from `payC` at clock value 2. -/
def aptU2 : Appointment := mkNewApt 2 payC

/-- A request whose interval 23:30–00:30 crosses midnight. -/
def payMidA : Payload :=
  { patientName := "P1", date := "2024-12-29", time := "23:30", duration := 60,
    doctorName := "Dr. A", mode := "Video", status := none }

/-- A request on the next date, inside the tail of `payMidA`'s interval. -/
def payMidB : Payload :=
  { patientName := "P2", date := "2024-12-30", time := "00:00", duration := 30,
    doctorName := "Dr. A", mode := "Video", status := none }

/-- The record created from `payMidA` at clock value 1. -/
def aptM1 : Appointment := mkNewApt 1 payMidA

/-- The record created from `payMidB` at clock value 2. -/
def aptM2 : Appointment := mkNewApt 2 payMidB

/-- A stored active appointment whose interval crosses midnight. -/
def aptMid : Appointment :=
  { id := "apt-1", patientName := "P1", date := "2024-12-29", time := "23:30",
    duration := 60, doctorName := "Dr. A", status := "Scheduled", mode := "Video" }

/-- Like `payC` but a different doctor, so the two never conflict. -/
def payB6 : Payload :=
  { payC with doctorName := "Dr. B", patientName := "P2" }

/-- Record created from `payC` at millisecond 1700000000000. -/
def aptT1 : Appointment := mkNewApt 1700000000000 payC

/-- Record created from `payB6` at the same millisecond 1700000000000. -/
def aptT2 : Appointment := mkNewApt 1700000000000 payB6

/-- A request with a negative duration and a mode outside the enumeration;
every field is JS-truthy. -/
def payNeg : Payload :=
  { patientName := "P", date := "2024-12-29", time := "09:00", duration := -5,
    doctorName := "Dr. A", mode := "Carrier", status := none }

/-- A request whose `date` is the empty string. -/
def payEmptyDate : Payload :=
  { patientName := "P", date := "", time := "09:00", duration := 30,
    doctorName := "Dr. A", mode := "Video", status := none }


/-! ### Lemmas about the comparator and the sort -/

theorem aptLtB_eq_true_iff {a b : Appointment} :
    aptLtB a b = true ↔ (a.date = b.date ∧ a.time < b.time) ∨ a.date < b.date := by
  by_cases hd : a.date = b.date <;> simp [aptLtB, hd]

theorem aptLtB_eq_false_iff {a b : Appointment} :
    aptLtB a b = false ↔ (a.date = b.date ∧ b.time ≤ a.time) ∨ b.date < a.date := by
  by_cases hd : a.date = b.date
  · simp [aptLtB, hd, not_lt]
  · simp only [aptLtB, hd, if_false, decide_eq_false_iff_not, not_lt, false_and, false_or]
    constructor
    · intro h
      exact lt_of_le_of_ne h (Ne.symm hd)
    · exact le_of_lt

theorem aptLtB_asymm {a b : Appointment} (h : aptLtB a b = true) : aptLtB b a = false := by
  rw [aptLtB_eq_true_iff] at h
  rw [aptLtB_eq_false_iff]
  rcases h with ⟨hd, ht⟩ | hlt
  · exact Or.inl ⟨hd.symm, le_of_lt ht⟩
  · exact Or.inr hlt

theorem aptLtB_false_trans {a b x : Appointment} (hab : aptLtB a b = true)
    (hxb : aptLtB x b = false) : aptLtB x a = false := by
  rw [aptLtB_eq_true_iff] at hab
  rw [aptLtB_eq_false_iff] at hxb ⊢
  rcases hab with ⟨hd, ht⟩ | hlt1
  · rcases hxb with ⟨hd2, ht2⟩ | hlt2
    · exact Or.inl ⟨hd2.trans hd.symm, le_of_lt (lt_of_lt_of_le ht ht2)⟩
    · exact Or.inr (lt_of_le_of_lt (le_of_eq hd) hlt2)
  · rcases hxb with ⟨hd2, _⟩ | hlt2
    · exact Or.inr (lt_of_lt_of_le hlt1 (le_of_eq hd2.symm))
    · exact Or.inr (hlt1.trans hlt2)

theorem aptLtB_false_rel {a b : Appointment} (h : aptLtB b a = false) :
    a.date < b.date ∨ (a.date = b.date ∧ a.time ≤ b.time) := by
  rw [aptLtB_eq_false_iff] at h
  rcases h with ⟨hd, ht⟩ | hlt
  · exact Or.inr ⟨hd.symm, ht⟩
  · exact Or.inl hlt

theorem mem_insertApt {x a : Appointment} : ∀ {l : List Appointment},
    x ∈ insertApt a l ↔ x = a ∨ x ∈ l
  | [] => by simp [insertApt]
  | b :: t => by
    by_cases hab : aptLtB a b
    · simp [insertApt, hab]
    · have he : insertApt a (b :: t) = b :: insertApt a t := by simp [insertApt, hab]
      rw [he]
      simp only [List.mem_cons, mem_insertApt (l := t)]
      tauto

theorem pairwise_insertApt {a : Appointment} : ∀ {l : List Appointment},
    (l.Pairwise fun x y => aptLtB y x = false) →
    (insertApt a l).Pairwise fun x y => aptLtB y x = false
  | [], _ => by simp [insertApt]
  | b :: t, h => by
    rcases List.pairwise_cons.mp h with ⟨hb, ht⟩
    by_cases hab : aptLtB a b
    · have he : insertApt a (b :: t) = a :: b :: t := by simp [insertApt, hab]
      rw [he]
      refine List.pairwise_cons.mpr ⟨?_, h⟩
      intro x hx
      rcases List.mem_cons.mp hx with rfl | hx
      · exact aptLtB_asymm hab
      · exact aptLtB_false_trans hab (hb x hx)
    · have he : insertApt a (b :: t) = b :: insertApt a t := by simp [insertApt, hab]
      rw [he]
      refine List.pairwise_cons.mpr ⟨?_, pairwise_insertApt ht⟩
      intro x hx
      rcases mem_insertApt.mp hx with rfl | hx
      · exact Bool.eq_false_iff.mpr hab
      · exact hb x hx

theorem sortApts_pairwise : ∀ l : List Appointment,
    (sortApts l).Pairwise fun x y => aptLtB y x = false
  | [] => by simp [sortApts]
  | a :: l => pairwise_insertApt (sortApts_pairwise l)

/-! ### Lemmas about the service operations -/

theorem updateFirst_spec (id ns : String) : ∀ {store : List Appointment}
    {r : Appointment} {s2 : List Appointment},
    updateFirst id ns store = some (r, s2) →
    ∃ l1 a l2, store = l1 ++ a :: l2 ∧ a.id = id ∧ (∀ x ∈ l1, x.id ≠ id) ∧
      r = { a with status := ns } ∧ s2 = l1 ++ { a with status := ns } :: l2
  | [], r, s2, h => by simp [updateFirst] at h
  | b :: t, r, s2, h => by
    by_cases hb : b.id = id
    · simp only [updateFirst, if_pos hb] at h
      have h2 := Option.some.inj h
      refine ⟨[], b, t, by simp, hb, by simp, ?_, ?_⟩
      · exact (congrArg Prod.fst h2).symm
      · simpa using (congrArg Prod.snd h2).symm
    · simp only [updateFirst, if_neg hb] at h
      cases hu : updateFirst id ns t with
      | none => simp [hu] at h
      | some pr =>
        obtain ⟨r0, l2'⟩ := pr
        simp only [hu] at h
        have h2 := Option.some.inj h
        simp only [Prod.mk.injEq] at h2
        obtain ⟨hrr, hss⟩ := h2
        obtain ⟨l1, a, l2, ht, ha, hl1, hr, hs⟩ := updateFirst_spec id ns hu
        refine ⟨b :: l1, a, l2, by rw [ht]; rfl, ha, ?_, ?_, ?_⟩
        · intro x hx
          rcases List.mem_cons.mp hx with rfl | hx
          · exact hb
          · exact hl1 x hx
        · rw [← hrr]
          exact hr
        · rw [← hss, hs]
          rfl

theorem updateFirst_none_iff (id ns : String) : ∀ store : List Appointment,
    updateFirst id ns store = none ↔ ∀ a ∈ store, a.id ≠ id
  | [] => by simp [updateFirst]
  | b :: t => by
    by_cases hb : b.id = id
    · simp only [updateFirst, if_pos hb]
      constructor
      · intro h
        exact absurd h (by simp)
      · intro h
        exact absurd hb (h b (by simp))
    · simp only [updateFirst, if_neg hb]
      cases hu : updateFirst id ns t with
      | none =>
        simp only []
        constructor
        · intro _ a ha
          rcases List.mem_cons.mp ha with rfl | ha
          · exact hb
          · exact (updateFirst_none_iff id ns t).mp hu a ha
        · intro _
          trivial
      | some pr =>
        obtain ⟨r0, l2'⟩ := pr
        simp only []
        constructor
        · intro h
          exact absurd h (by simp)
        · intro h
          have := (updateFirst_none_iff id ns t).mpr fun a ha => h a (List.mem_cons_of_mem _ ha)
          rw [this] at hu
          exact absurd hu (by simp)

theorem removeFirst_sublist (id : String) : ∀ {store s2 : List Appointment},
    removeFirst id store = some s2 → List.Sublist s2 store
  | [], s2, h => by simp [removeFirst] at h
  | b :: t, s2, h => by
    by_cases hb : b.id = id
    · simp only [removeFirst, if_pos hb] at h
      rw [← Option.some.inj h]
      exact List.sublist_cons_self b t
    · simp only [removeFirst, if_neg hb] at h
      cases hu : removeFirst id t with
      | none => simp [hu] at h
      | some l2 =>
        simp only [hu] at h
        rw [← Option.some.inj h]
        exact List.Sublist.cons₂ b (removeFirst_sublist id hu)

theorem removeFirst_length (id : String) : ∀ {store s2 : List Appointment},
    removeFirst id store = some s2 → s2.length + 1 = store.length
  | [], s2, h => by simp [removeFirst] at h
  | b :: t, s2, h => by
    by_cases hb : b.id = id
    · simp only [removeFirst, if_pos hb] at h
      rw [← Option.some.inj h]
      rfl
    · simp only [removeFirst, if_neg hb] at h
      cases hu : removeFirst id t with
      | none => simp [hu] at h
      | some l2 =>
        simp only [hu] at h
        rw [← Option.some.inj h]
        simpa using removeFirst_length id hu

theorem overlapB_mkNewApt (now : Nat) (p : Payload) (a : Appointment) :
    overlapB a (mkNewApt now p) = conflictWith p a := rfl

theorem create_ok_cases (now : Nat) (p : Payload) (store : List Appointment) :
    ((∃ e, (createAppointment now p store).1 = .error e) ∧
      (createAppointment now p store).2 = store) ∨
    ((createAppointment now p store).1 = .ok (mkNewApt now p) ∧
      (createAppointment now p store).2 = store ++ [mkNewApt now p] ∧
      ∀ a ∈ store, inConflictSet p a = true → conflictWith p a = false) := by
  unfold createAppointment
  cases hv : firstMissingField p with
  | some f => exact Or.inl ⟨⟨.missingField f, rfl⟩, rfl⟩
  | none =>
    cases hf : (store.filter (inConflictSet p)).find? (conflictWith p) with
    | some apt => exact Or.inl ⟨⟨.timeConflict apt.time, rfl⟩, rfl⟩
    | none =>
      refine Or.inr ⟨rfl, rfl, ?_⟩
      intro a ha hc
      have := List.find?_eq_none.mp hf a (List.mem_filter.mpr ⟨ha, hc⟩)
      simpa using this

theorem create_preserves_noDouble (now : Nat) (p : Payload)
    {store : List Appointment} (h : NoDouble store) :
    NoDouble (createAppointment now p store).2 := by
  rcases create_ok_cases now p store with ⟨-, he⟩ | ⟨-, he, hnc⟩
  · rw [he]
    exact h
  · rw [he]
    refine List.pairwise_append.mpr ⟨h, List.pairwise_singleton _ _, ?_⟩
    intro a ha b hb
    rcases List.mem_singleton.mp hb with rfl
    intro hdoc hdate hactA _
    rw [overlapB_mkNewApt]
    apply hnc a ha
    simp only [inConflictSet, Bool.and_eq_true, beq_iff_eq]
    exact ⟨⟨hdoc, hdate⟩, hactA⟩

theorem delete_preserves_noDouble (id : String)
    {store : List Appointment} (h : NoDouble store) :
    NoDouble (deleteAppointment id store).2 := by
  unfold deleteAppointment
  cases hu : removeFirst id store with
  | some s2 => exact h.sublist (removeFirst_sublist id hu)
  | none => exact h

theorem update_result_store (id ns : String) (store : List Appointment) :
    (updateAppointmentStatus id ns store).2 = store ∨
    ∃ r s2, updateFirst id ns store = some (r, s2) ∧
      (updateAppointmentStatus id ns store).2 = s2 := by
  unfold updateAppointmentStatus
  cases hu : updateFirst id ns store with
  | none => exact Or.inl rfl
  | some pr =>
    obtain ⟨r0, s0⟩ := pr
    exact Or.inr ⟨r0, s0, rfl, rfl⟩

theorem getAppointments_sorted (fs : Filters) (store : List Appointment) :
    (getAppointments fs store).Pairwise fun a b =>
      a.date < b.date ∨ (a.date = b.date ∧ a.time ≤ b.time) :=
  (sortApts_pairwise _).imp fun hx => aptLtB_false_rel hx

theorem getFilteredAppointments_sublist (tab today : String) (l : List Appointment) :
    List.Sublist (getFilteredAppointments tab today l) l := by
  unfold getFilteredAppointments
  split
  · exact List.filter_sublist l
  · split
    · exact List.filter_sublist l
    · split
      · exact List.filter_sublist l
      · exact List.Sublist.refl l

/-! ### The claims -/

/-- C1 (amended): `updateAppointmentStatus` performs no transition-table
check.  Whenever some stored appointment has the requested id, the call
succeeds and unconditionally writes `newStatus` into the first such record
and returns it; it fails — with the not-found error and the store
unchanged — exactly when no stored appointment has the id. -/
theorem updateStatus_no_transition_check (id ns : String) (store : List Appointment) :
    ((∃ a ∈ store, a.id = id) →
      ∃ r, (updateAppointmentStatus id ns store).1 = .ok r ∧ r.status = ns ∧ r.id = id)
    ∧ ((∀ a ∈ store, a.id ≠ id) →
      updateAppointmentStatus id ns store = (.error .notFound, store)) := by
  constructor
  · rintro ⟨a, ha, haid⟩
    cases hu : updateFirst id ns store with
    | none =>
      exact absurd haid ((updateFirst_none_iff id ns store).mp hu a ha)
    | some pr =>
      obtain ⟨r0, s0⟩ := pr
      obtain ⟨l1, a2, l2, _, ha2, _, hr, _⟩ := updateFirst_spec id ns hu
      refine ⟨r0, ?_, ?_, ?_⟩
      · simp [updateAppointmentStatus, hu]
      · simp [hr]
      · simp [hr, ha2]
  · intro h
    simp [updateAppointmentStatus, (updateFirst_none_iff id ns store).mpr h]

/-- Witness for `updateStatus_no_transition_check` on a concrete store. -/
theorem updateStatus_no_transition_check_witness :
    ∃ r, (updateAppointmentStatus "apt-0" "Cancelled" store09).1 = .ok r ∧
      r.status = "Cancelled" ∧ r.id = "apt-0" :=
  (updateStatus_no_transition_check "apt-0" "Cancelled" store09).1
    ⟨apt09, by decide, by decide⟩

/-- C1 counterexample: updating a `Completed` appointment to `Scheduled`
does not fail with an invalid-transition error as claimed — the call
succeeds and mutates the store. -/
theorem update_completed_to_scheduled_succeeds :
    updateAppointmentStatus "apt-9" "Scheduled" [aptDone] =
      (.ok { aptDone with status := "Scheduled" },
        [{ aptDone with status := "Scheduled" }]) := by decide

/-- C2 (amended): starting from a store in which no two same-doctor,
same-date appointments with active status have overlapping intervals, any
sequence of `createAppointment` / `deleteAppointment` calls (no status
updates) preserves that invariant. -/
theorem noDouble_preserved_create_delete (ops : List Op) :
    ∀ store : List Appointment, NoDouble store → (∀ op ∈ ops, notUpdate op) →
      NoDouble (runOps store ops) := by
  induction ops with
  | nil =>
    intro store h _
    exact h
  | cons op t ih =>
    intro store h hops
    rw [runOps, List.foldl_cons]
    refine ih (applyOp store op) ?_ fun o ho => hops o (List.mem_cons_of_mem _ ho)
    cases op with
    | create now p => exact create_preserves_noDouble now p h
    | update uid ns => exact (hops (Op.update uid ns) (by simp)).elim
    | del did => exact delete_preserves_noDouble did h

/-- Witness for `noDouble_preserved_create_delete` on the empty store. -/
theorem noDouble_preserved_create_delete_witness :
    NoDouble (runOps [] [Op.create 1 payC, Op.del "apt-1"]) :=
  noDouble_preserved_create_delete [Op.create 1 payC, Op.del "apt-1"] []
    (by constructor)
    (by
      intro op ho
      rcases List.mem_cons.mp ho with rfl | ho
      · trivial
      · rcases List.mem_cons.mp ho with rfl | ho
        · trivial
        · cases ho)

/-- C2 counterexample: sequences of successful engine calls do reach
stores holding two overlapping active appointments of one doctor — first
by an `updateAppointmentStatus` call that moves a cancelled booking back
to `Scheduled` on top of a later booking of the same slot, and second by
two creates whose intervals overlap across midnight under different date
strings. -/
theorem double_booking_reachable :
    (runOps [] [Op.create 1 payC, Op.update "apt-1" "Cancelled",
        Op.create 2 payC, Op.update "apt-1" "Scheduled"] = [aptU1, aptU2]
      ∧ aptU1.doctorName = aptU2.doctorName ∧ aptU1.date = aptU2.date
      ∧ activeStatus aptU1.status = true ∧ activeStatus aptU2.status = true
      ∧ aptU1 ≠ aptU2 ∧ overlapB aptU1 aptU2 = true)
    ∧ (runOps [] [Op.create 1 payMidA, Op.create 2 payMidB] = [aptM1, aptM2]
      ∧ aptM1.doctorName = aptM2.doctorName
      ∧ activeStatus aptM1.status = true ∧ activeStatus aptM2.status = true
      ∧ aptM1 ≠ aptM2 ∧ overlapB aptM1 aptM2 = true) := by decide

/-- C3 (amended): when validation passes, `createAppointment` succeeds
iff no stored appointment of the same doctor and of the same **date
string** with active status overlaps the candidate half-open interval
(`existing.start < candidate.end AND candidate.start < existing.end`), and
a conflict error always carries the time of such a conflicting
appointment.  In particular a request starting exactly when an existing
appointment ends does not conflict. -/
theorem create_conflict_characterization (now : Nat) (p : Payload)
    (store : List Appointment) (hv : firstMissingField p = none) :
    ((createAppointment now p store).1.isOk = true ↔
      ∀ a ∈ store, a.doctorName = p.doctorName → a.date = p.date →
        activeStatus a.status = true → conflictWith p a = false)
    ∧ ∀ t, (createAppointment now p store).1 = .error (.timeConflict t) →
        ∃ a ∈ store, a.doctorName = p.doctorName ∧ a.date = p.date ∧
          activeStatus a.status = true ∧ conflictWith p a = true ∧ a.time = t := by
  cases hf : (store.filter (inConflictSet p)).find? (conflictWith p) with
  | none =>
    have hres : createAppointment now p store =
        (.ok (mkNewApt now p), store ++ [mkNewApt now p]) := by
      simp [createAppointment, hv, hf]
    rw [hres]
    constructor
    · constructor
      · intro _ a ha hdoc hdate hact
        have := List.find?_eq_none.mp hf a
          (List.mem_filter.mpr ⟨ha, by simp [inConflictSet, hdoc, hdate, hact]⟩)
        simpa using this
      · intro _
        rfl
    · intro t ht
      simp at ht
  | some apt =>
    have hres : createAppointment now p store = (.error (.timeConflict apt.time), store) := by
      simp [createAppointment, hv, hf]
    rw [hres]
    have hmem := List.mem_of_find?_eq_some hf
    have hconf := List.find?_some hf
    obtain ⟨hmem2, hcs⟩ := List.mem_filter.mp hmem
    simp only [inConflictSet, Bool.and_eq_true, beq_iff_eq] at hcs
    constructor
    · constructor
      · intro hok
        simp [Except.isOk, Except.toBool] at hok
      · intro hall
        exact absurd (hall apt hmem2 hcs.1.1 hcs.1.2 hcs.2) (by simp [hconf])
    · intro t ht
      have htt : apt.time = t := by simpa using ht
      exact ⟨apt, hmem2, hcs.1.1, hcs.1.2, hcs.2, hconf, htt⟩

/-- Witness for `create_conflict_characterization`: the boundary request
09:30 against an active 09:00 appointment of duration 30 succeeds. -/
theorem create_conflict_characterization_witness :
    (createAppointment 7 pay0930 store09).1.isOk = true :=
  (create_conflict_characterization 7 pay0930 store09 rfl).1.mpr (by decide)

/-- C3 counterexample: an active same-doctor appointment stored under the
previous date whose interval crosses midnight overlaps the candidate's
interval, yet `createAppointment` succeeds instead of failing with a
conflict error. -/
theorem create_midnight_overlap_missed :
    (∃ a ∈ [aptMid], a.doctorName = payMidB.doctorName ∧ activeStatus a.status = true ∧
      conflictWith payMidB a = true)
    ∧ (createAppointment 9 payMidB [aptMid]).1 = .ok (mkNewApt 9 payMidB) := by decide

/-- C4: a conflict error of `createAppointment` is always caused by a
stored appointment of the same doctor whose date string equals the
request's date exactly; appointments under any other date are never
consulted, even when their intervals extend past midnight. -/
theorem create_conflict_only_same_date (now : Nat) (p : Payload) (store : List Appointment) :
    ∀ t, (createAppointment now p store).1 = .error (.timeConflict t) →
      ∃ a ∈ store, a.date = p.date ∧ a.doctorName = p.doctorName ∧ a.time = t := by
  intro t ht
  cases hv : firstMissingField p with
  | some f =>
    rw [show createAppointment now p store = (.error (.missingField f), store) by
      simp [createAppointment, hv]] at ht
    simp at ht
  | none =>
    cases hf : (store.filter (inConflictSet p)).find? (conflictWith p) with
    | none =>
      rw [show createAppointment now p store =
          (.ok (mkNewApt now p), store ++ [mkNewApt now p]) by
        simp [createAppointment, hv, hf]] at ht
      simp at ht
    | some apt =>
      rw [show createAppointment now p store = (.error (.timeConflict apt.time), store) by
        simp [createAppointment, hv, hf]] at ht
      have hmem := List.mem_of_find?_eq_some hf
      obtain ⟨hmem2, hcs⟩ := List.mem_filter.mp hmem
      simp only [inConflictSet, Bool.and_eq_true, beq_iff_eq] at hcs
      have htt : apt.time = t := by simpa using ht
      exact ⟨apt, hmem2, hcs.1.2, hcs.1.1, htt⟩

/-- Witness for `create_conflict_only_same_date` at a conflicting
request. -/
theorem create_conflict_only_same_date_witness :
    ∃ a ∈ store09, a.date = pay0915.date ∧ a.doctorName = pay0915.doctorName ∧
      a.time = "09:00" :=
  create_conflict_only_same_date 7 pay0915 store09 "09:00" (by decide)

/-- C5 (amended): `createAppointment` checks the fields in the fixed
order patientName, date, time, duration, doctorName, mode and fails with
an error naming the first JS-falsy field (empty string, or zero for the
numeric duration); when every field is truthy no missing-field error
occurs.  No date/time format check, no positivity check on duration and no
enumeration check on mode is performed. -/
theorem create_validation_order (now : Nat) (p : Payload) (store : List Appointment) :
    (p.patientName = "" →
      (createAppointment now p store).1 = .error (.missingField "patientName"))
    ∧ (p.patientName ≠ "" → p.date = "" →
      (createAppointment now p store).1 = .error (.missingField "date"))
    ∧ (p.patientName ≠ "" → p.date ≠ "" → p.time = "" →
      (createAppointment now p store).1 = .error (.missingField "time"))
    ∧ (p.patientName ≠ "" → p.date ≠ "" → p.time ≠ "" → p.duration = 0 →
      (createAppointment now p store).1 = .error (.missingField "duration"))
    ∧ (p.patientName ≠ "" → p.date ≠ "" → p.time ≠ "" → p.duration ≠ 0 →
      p.doctorName = "" →
      (createAppointment now p store).1 = .error (.missingField "doctorName"))
    ∧ (p.patientName ≠ "" → p.date ≠ "" → p.time ≠ "" → p.duration ≠ 0 →
      p.doctorName ≠ "" → p.mode = "" →
      (createAppointment now p store).1 = .error (.missingField "mode"))
    ∧ (p.patientName ≠ "" → p.date ≠ "" → p.time ≠ "" → p.duration ≠ 0 →
      p.doctorName ≠ "" → p.mode ≠ "" →
      ∀ f, (createAppointment now p store).1 ≠ .error (.missingField f)) := by
  refine ⟨?_, ?_, ?_, ?_, ?_, ?_, ?_⟩
  · intro h1
    simp [createAppointment, firstMissingField, h1]
  · intro h1 h2
    simp [createAppointment, firstMissingField, h1, h2]
  · intro h1 h2 h3
    simp [createAppointment, firstMissingField, h1, h2, h3]
  · intro h1 h2 h3 h4
    simp [createAppointment, firstMissingField, h1, h2, h3, h4]
  · intro h1 h2 h3 h4 h5
    simp [createAppointment, firstMissingField, h1, h2, h3, h4, h5]
  · intro h1 h2 h3 h4 h5 h6
    simp [createAppointment, firstMissingField, h1, h2, h3, h4, h5, h6]
  · intro h1 h2 h3 h4 h5 h6 f
    have hv : firstMissingField p = none := by
      simp [firstMissingField, h1, h2, h3, h4, h5, h6]
    cases hf : (store.filter (inConflictSet p)).find? (conflictWith p) with
    | none =>
      rw [show createAppointment now p store =
          (.ok (mkNewApt now p), store ++ [mkNewApt now p]) by
        simp [createAppointment, hv, hf]]
      simp
    | some apt =>
      rw [show createAppointment now p store = (.error (.timeConflict apt.time), store) by
        simp [createAppointment, hv, hf]]
      simp

/-- Witness for `create_validation_order`: an empty date is reported
after a non-empty patientName. -/
theorem create_validation_order_witness :
    (createAppointment 3 payEmptyDate []).1 = .error (.missingField "date") :=
  (create_validation_order 3 payEmptyDate []).2.1 (by decide) rfl

/-- C5 counterexample: a request with duration `-5` (not a positive
integer) and a mode outside the three enumerated values passes validation
and is inserted unchanged, where the claim requires a `ValidationError`
naming the offending field. -/
theorem create_accepts_invalid_fields :
    (createAppointment 4 payNeg []).1 = .ok (mkNewApt 4 payNeg)
    ∧ (mkNewApt 4 payNeg).duration = -5 ∧ (mkNewApt 4 payNeg).mode = "Carrier" := by decide

/-- C6: two successful creates within the same `Date.now()` millisecond
are assigned the same id, so distinct appointments of the store share an
id — the ids are the wall-clock string `apt-` followed by the millisecond
count, with no uniqueness guarantee. -/
theorem create_id_collision_same_millisecond :
    createAppointment 1700000000000 payC [] = (.ok aptT1, [aptT1])
    ∧ (createAppointment 1700000000000 payB6 [aptT1]).1 = .ok aptT2
    ∧ aptT1.id = aptT2.id ∧ aptT1 ≠ aptT2 := by decide

/-- C7: every engine operation either fails leaving the store exactly
unchanged, or succeeds with the store reflecting the change: a successful
create appends exactly the returned record, a successful update's returned
record is in the resulting store, and a successful delete removes exactly
one record. -/
theorem engine_atomicity (now : Nat) (p : Payload) (id ns : String)
    (store : List Appointment) :
    ((createAppointment now p store).1.isOk = false →
      (createAppointment now p store).2 = store)
    ∧ (∀ r, (createAppointment now p store).1 = .ok r →
      (createAppointment now p store).2 = store ++ [r])
    ∧ ((updateAppointmentStatus id ns store).1.isOk = false →
      (updateAppointmentStatus id ns store).2 = store)
    ∧ (∀ r, (updateAppointmentStatus id ns store).1 = .ok r →
      r ∈ (updateAppointmentStatus id ns store).2)
    ∧ ((deleteAppointment id store).1 = false → (deleteAppointment id store).2 = store)
    ∧ ((deleteAppointment id store).1 = true →
      (deleteAppointment id store).2.length + 1 = store.length) := by
  refine ⟨?_, ?_, ?_, ?_, ?_, ?_⟩
  · intro hfail0
    rcases create_ok_cases now p store with ⟨-, he⟩ | ⟨hok, -, -⟩
    · exact he
    · rw [hok] at hfail0
      simp [Except.isOk, Except.toBool] at hfail0
  · intro r hr
    rcases create_ok_cases now p store with ⟨⟨e, herr⟩, -⟩ | ⟨hok, he, -⟩
    · rw [herr] at hr
      simp at hr
    · rw [hok] at hr
      rw [he, Except.ok.inj hr]
  · intro hfail
    cases hu : updateFirst id ns store with
    | some pr =>
      obtain ⟨r0, s0⟩ := pr
      rw [show updateAppointmentStatus id ns store = (.ok r0, s0) by
        simp [updateAppointmentStatus, hu]] at hfail
      simp [Except.isOk, Except.toBool] at hfail
    | none =>
      simp [updateAppointmentStatus, hu]
  · intro r hr
    cases hu : updateFirst id ns store with
    | none =>
      rw [show updateAppointmentStatus id ns store = (.error .notFound, store) by
        simp [updateAppointmentStatus, hu]] at hr
      simp at hr
    | some pr =>
      obtain ⟨r0, s0⟩ := pr
      have hres : updateAppointmentStatus id ns store = (.ok r0, s0) := by
        simp [updateAppointmentStatus, hu]
      rw [hres] at hr ⊢
      obtain ⟨l1, a, l2, _, _, _, hrx, hsx⟩ := updateFirst_spec id ns hu
      rw [← Except.ok.inj hr, hrx, hsx]
      exact List.mem_append_right _ (List.mem_cons_self _ _)
  · intro hfail
    cases hd : removeFirst id store with
    | some s2 =>
      rw [show deleteAppointment id store = (true, s2) by
        simp [deleteAppointment, hd]] at hfail
      simp at hfail
    | none =>
      simp [deleteAppointment, hd]
  · intro htrue
    cases hd : removeFirst id store with
    | none =>
      rw [show deleteAppointment id store = (false, store) by
        simp [deleteAppointment, hd]] at htrue
      simp at htrue
    | some s2 =>
      rw [show deleteAppointment id store = (true, s2) by
        simp [deleteAppointment, hd]]
      exact removeFirst_length id hd

/-- Witness for `engine_atomicity`: a conflicting create and a delete of
an absent id both leave the store unchanged. -/
theorem engine_atomicity_witness :
    (createAppointment 7 pay0915 store09).2 = store09 ∧
    (deleteAppointment "nope" store09).2 = store09 :=
  ⟨(engine_atomicity 7 pay0915 "nope" "X" store09).1 (by decide),
   (engine_atomicity 7 pay0915 "nope" "X" store09).2.2.2.2.1 (by decide)⟩

/-- C8: the tab refinement keeps exactly — today: the appointments whose
date equals the reference date; upcoming: date ≥ reference date and status
among Scheduled, Upcoming, Confirmed; past: date < reference date or
status Completed; all: every appointment, unrestricted. -/
theorem tab_refinement_exact (today : String) (l : List Appointment) (a : Appointment) :
    (a ∈ getFilteredAppointments "today" today l ↔ a ∈ l ∧ a.date = today)
    ∧ (a ∈ getFilteredAppointments "upcoming" today l ↔
        a ∈ l ∧ today ≤ a.date ∧
          (a.status = "Scheduled" ∨ a.status = "Upcoming" ∨ a.status = "Confirmed"))
    ∧ (a ∈ getFilteredAppointments "past" today l ↔
        a ∈ l ∧ (a.date < today ∨ a.status = "Completed"))
    ∧ getFilteredAppointments "all" today l = l := by
  refine ⟨?_, ?_, ?_, ?_⟩ <;>
    simp [getFilteredAppointments, List.mem_filter, decide_eq_true_eq, and_assoc, or_assoc]

/-- C10: a successful `updateAppointmentStatus` rewrites only the status
field of the first appointment carrying the given id: its other seven
fields and every other appointment of the store are unchanged, and the
returned record is that updated appointment. -/
theorem updateStatus_frame (id ns : String) (store s2 : List Appointment) (r : Appointment)
    (h : updateAppointmentStatus id ns store = (.ok r, s2)) :
    ∃ l1 a l2, store = l1 ++ a :: l2 ∧ a.id = id ∧ (∀ x ∈ l1, x.id ≠ id) ∧
      r = { a with status := ns } ∧ s2 = l1 ++ { a with status := ns } :: l2 := by
  cases hu : updateFirst id ns store with
  | none =>
    rw [show updateAppointmentStatus id ns store = (.error .notFound, store) by
      simp [updateAppointmentStatus, hu]] at h
    simp at h
  | some pr =>
    obtain ⟨r0, s0⟩ := pr
    rw [show updateAppointmentStatus id ns store = (.ok r0, s0) by
      simp [updateAppointmentStatus, hu]] at h
    simp only [Prod.mk.injEq] at h
    obtain ⟨h1, h2⟩ := h
    rw [← Except.ok.inj h1, ← h2]
    exact updateFirst_spec id ns hu

/-- Witness for `updateStatus_frame` on a concrete store. -/
theorem updateStatus_frame_witness :
    ∃ l1 a l2, store09 = l1 ++ a :: l2 ∧ a.id = "apt-0" ∧ (∀ x ∈ l1, x.id ≠ "apt-0") ∧
      ({ apt09 with status := "Confirmed" } : Appointment) = { a with status := "Confirmed" } ∧
      [{ apt09 with status := "Confirmed" }] =
        l1 ++ { a with status := "Confirmed" } :: l2 :=
  updateStatus_frame "apt-0" "Confirmed" store09 [{ apt09 with status := "Confirmed" }]
    { apt09 with status := "Confirmed" } (by decide)

/-- C9: for every filter combination, and additionally after any tab
refinement with any reference date, the returned sequence is sorted
ascending by date and by time within equal dates, under the lexicographic
order on the ISO strings. -/
theorem query_sorted (fs : Filters) (tab today : String) (store : List Appointment) :
    ((getAppointments fs store).Pairwise fun a b =>
      a.date < b.date ∨ (a.date = b.date ∧ a.time ≤ b.time))
    ∧ ((getFilteredAppointments tab today (getAppointments fs store)).Pairwise fun a b =>
      a.date < b.date ∨ (a.date = b.date ∧ a.time ≤ b.time)) :=
  ⟨getAppointments_sorted fs store,
    (getAppointments_sorted fs store).sublist
      (getFilteredAppointments_sublist tab today (getAppointments fs store))⟩

end EMR
